import Mathlib

/-!
Shallow embedding of the scheduling/synchronization core of a small rCore-style
teaching kernel (task manager ready queue, timer min-queue, condition variable,
trap dispatcher, pid registry) and of the easy-fs `Inode::create` operation,
together with proofs of the behavioural properties stated in the specification.

`Arc<TaskControlBlock>` references are modelled by their pointer identity
(`Arc::as_ptr`), i.e. by a natural-number task id.
-/

/-- Pointer identity of an `Arc<TaskControlBlock>` (`Arc::as_ptr`). -/
abbrev TaskId := Nat

/-! ## Task manager ready queue (src/os/src/task/manager.rs)

`TaskManager` holds a `VecDeque<Arc<TaskControlBlock>>`; `push_back`/`pop_front`
become list append / head removal. -/

structure TaskManager where
  ready_queue : List TaskId
deriving DecidableEq

/-- `TaskManager::new`. -/
def TaskManager.new : TaskManager := ⟨[]⟩

/-- `TaskManager::add`: `self.ready_queue.push_back(task)`. -/
def TaskManager.add (m : TaskManager) (task : TaskId) : TaskManager :=
  ⟨m.ready_queue ++ [task]⟩

/-- `TaskManager::fetch`: `self.ready_queue.pop_front()`; returns the popped
front (or `none`) together with the manager afterwards. -/
def TaskManager.fetch (m : TaskManager) : Option TaskId × TaskManager :=
  match m.ready_queue with
  | [] => (none, m)
  | t :: rest => (some t, ⟨rest⟩)

/-- `TaskManager::remove`: find the first index whose entry has the same
`Arc::as_ptr` as `task` and remove it from the deque; do nothing otherwise. -/
def TaskManager.remove (m : TaskManager) (task : TaskId) : TaskManager :=
  match m.ready_queue.enum.find? (fun p => p.2 == task) with
  | some idp => ⟨m.ready_queue.eraseIdx idp.1⟩
  | none => m

/-- Repeatedly `fetch` (at most `fuel` times), collecting the returned tasks in
order, stopping at the first empty signal. -/
def TaskManager.drainFuel : Nat → TaskManager → List TaskId
  | 0, _ => []
  | n + 1, m =>
    match m.fetch with
    | (none, _) => []
    | (some t, m₂) => t :: TaskManager.drainFuel n m₂

/-! ## Task status (src/os/src/task/task.rs)

The `TaskStatus` enum exactly as declared in src/os/src/task/task.rs: its
variants are `UnInit`, `Ready`, `Running`, `Exited`. -/

inductive TaskStatus where
  | UnInit
  | Ready
  | Running
  | Exited
deriving DecidableEq, Fintype

/-! ## Scheduling-core state

`manager.rs`'s module-level operations (`add_task`, `wakeup_task`,
`remove_task`, `fetch_task`) and `condvar.rs` mutate the global ready queue, a
condvar's wait queue, and task statuses stored in each task control block.  The
state below makes these globals explicit. -/

/-- Modelled from the spec: the task-status alphabet used by the scheduling
core (spec section 3, TaskStatus state machine).  The chapter-8 task module
that `manager.rs`/`condvar.rs` compile against (with its `Blocked` status set
by `block_current_task`/`block_current_and_run_next`) is not among the provided
sources; `src/os/src/task/task.rs` holds a divergent earlier variant of the
enum, embedded separately above as `TaskStatus`. -/
inductive SchedStatus where
  | UnInit
  | Ready
  | Running
  | Blocked
  | Zombie
deriving DecidableEq

/-- The explicit state of the scheduling core: the global ready queue
(`TASK_MANAGER`), one condition variable's `wait_queue`, and each task's
`task_status` field. -/
structure SchedState where
  ready : List TaskId
  waitq : List TaskId
  status : TaskId → SchedStatus

/-- `add_task` (manager.rs): `TASK_MANAGER.exclusive_access().add(task)`. -/
def add_task (st : SchedState) (task : TaskId) : SchedState :=
  { st with ready := st.ready ++ [task] }

/-- `wakeup_task` (manager.rs): set `task_status = TaskStatus::Ready`, then
`add_task(task)`. -/
def wakeup_task (st : SchedState) (task : TaskId) : SchedState :=
  add_task { st with status := Function.update st.status task SchedStatus.Ready } task

/-- `fetch_task` (manager.rs): pop the front of the ready queue. -/
def fetch_task (st : SchedState) : Option TaskId × SchedState :=
  match st.ready with
  | [] => (none, st)
  | t :: rest => (some t, { st with ready := rest })

/-- `remove_task` (manager.rs): `TASK_MANAGER.exclusive_access().remove(task)`. -/
def remove_task (st : SchedState) (task : TaskId) : SchedState :=
  { st with ready := (TaskManager.remove ⟨st.ready⟩ task).ready_queue }

/-- `Condvar::signal` (condvar.rs): pop the front of the wait queue and, if a
task was present, `wakeup_task` it; no-op on an empty queue. -/
def Condvar.signal (st : SchedState) : SchedState :=
  match st.waitq with
  | [] => st
  | t :: rest => wakeup_task { st with waitq := rest } t

/-- Modelled from the spec: `block_current_task` (src/os/src/task/mod.rs, not
among the provided sources) marks the currently running task `Blocked`; the
context-switch part is opaque and omitted. -/
def block_current_task (st : SchedState) (cur : TaskId) : SchedState :=
  { st with status := Function.update st.status cur SchedStatus.Blocked }

/-- `Condvar::wait_no_sched` (condvar.rs): push the current task onto the wait
queue, then `block_current_task()`. -/
def Condvar.wait_no_sched (st : SchedState) (cur : TaskId) : SchedState :=
  block_current_task { st with waitq := st.waitq ++ [cur] } cur

/-- The spec's scheduling invariant: every task in the ready queue has status
`Ready`, every task in the wait queue has status `Blocked`. -/
def SchedInv (st : SchedState) : Prop :=
  (∀ t ∈ st.ready, st.status t = SchedStatus.Ready) ∧
  (∀ t ∈ st.waitq, st.status t = SchedStatus.Blocked)

instance (st : SchedState) : Decidable (SchedInv st) := by
  unfold SchedInv; infer_instance

/-! ## Timer subsystem (src/os/src/timer.rs)

`TIMERS` is a `BinaryHeap<TimerCondVar>` whose `Ord` negates `expire_ms`, so
the heap's maximum is the soonest deadline.  The heap is embedded as a list
kept sorted by ascending `expire_ms` (the order in which `pop` delivers
entries); `push` becomes ordered insertion.  Ties compare equal in the Rust
`Ord` and are placed arbitrarily by the heap, matching `orderedInsert`. -/

structure TimerCondVar where
  expire_ms : Nat
  task : TaskId
deriving DecidableEq

/-- The pop order of the inverted-comparison heap: ascending `expire_ms`
(the Rust `Ord` compares only `expire_ms`). -/
def timerLE (a b : TimerCondVar) : Prop := a.expire_ms ≤ b.expire_ms

instance : DecidableRel timerLE := fun a b => Nat.decLe a.expire_ms b.expire_ms

instance : IsTotal TimerCondVar timerLE := ⟨fun a b => Nat.le_total a.expire_ms b.expire_ms⟩

instance : IsTrans TimerCondVar timerLE := ⟨fun _ _ _ h₁ h₂ => Nat.le_trans h₁ h₂⟩

/-- `add_timer(expire_ms, task)`: `timers.push(TimerCondVar { expire_ms, task })`. -/
def add_timer (expire_ms : Nat) (task : TaskId) (timers : List TimerCondVar) :
    List TimerCondVar :=
  timers.orderedInsert timerLE ⟨expire_ms, task⟩

/-- The heap contents after a sequence of `add_timer(t_i, task_i)` calls
starting from the empty heap. -/
def build_timers (seq : List (Nat × TaskId)) : List TimerCondVar :=
  seq.foldl (fun acc p => add_timer p.1 p.2 acc) []

/-- `check_timer()`: with `current_ms = get_time_ms()`, repeatedly peek the
earliest entry; while its `expire_ms ≤ current_ms`, `wakeup_task` its task and
pop it; stop at the first entry still in the future.  Returns the remaining
heap and the scheduling state after the wakeups. -/
def check_timer (current_ms : Nat) :
    List TimerCondVar → SchedState → List TimerCondVar × SchedState
  | [], st => ([], st)
  | tv :: rest, st =>
    if tv.expire_ms ≤ current_ms then
      check_timer current_ms rest (wakeup_task st tv.task)
    else (tv :: rest, st)

/-! ## Blocking mutex and `Condvar::wait_with_mutex` (src/os/src/sync/condvar.rs)

`wait_with_mutex` composes the mutex, the condvar's own wait queue and the
blocking primitive.  The kernel runs the whole sequence with interrupt
delivery disabled (no `enable_supervisor_interrupt` call exists in
`trap_handler`, and every shared structure sits in a `UPIntrFreeCell`), so the
sequential composition below is the scheduler-visible semantics. -/

/-- Modelled from the spec: the inner state of a blocking mutex
(`MutexBlocking`, src/os/src/sync/mutex.rs, not among the provided sources):
a lock-holder flag plus a FIFO wait queue. -/
structure MutexSt where
  locked : Bool
  wait_queue : List TaskId
deriving DecidableEq

/-- The combined state touched by `Condvar::wait_with_mutex`: the associated
mutex plus the scheduling core (whose `waitq` field is this condvar's
`wait_queue`). -/
structure SyncState where
  mutex : MutexSt
  core : SchedState

/-- Modelled from the spec: `MutexBlocking::unlock` (spec section 4.3): if a
waiter is queued, hand ownership directly to the head of the wait queue,
waking it (the holder flag stays set); otherwise mark the lock free. -/
def mutex_unlock (s : SyncState) : SyncState :=
  match s.mutex.wait_queue with
  | [] => { s with mutex := { s.mutex with locked := false } }
  | t :: rest =>
    { s with
      mutex := { s.mutex with wait_queue := rest }
      core := wakeup_task s.core t }

/-- Modelled from the spec: `MutexBlocking::lock` (spec section 4.3): acquire
immediately if free; otherwise enqueue the caller at the tail of the mutex
wait queue and suspend it as `Blocked`.  The returned flag records whether the
lock was acquired without blocking. -/
def mutex_lock (s : SyncState) (caller : TaskId) : SyncState × Bool :=
  if s.mutex.locked then
    ({ s with
        mutex := { s.mutex with wait_queue := s.mutex.wait_queue ++ [caller] }
        core := block_current_task s.core caller }, false)
  else
    ({ s with mutex := { s.mutex with locked := true } }, true)

/-- `Condvar::wait_with_mutex` up to the suspension point (condvar.rs): call
`mutex.unlock()`, push the current task onto the condvar's `wait_queue`, then
`block_current_and_run_next()` (which marks the caller `Blocked` and switches
away). -/
def Condvar.wait_with_mutex_suspend (s : SyncState) (caller : TaskId) : SyncState :=
  let s₁ := mutex_unlock s
  let s₂ := { s₁ with core := { s₁.core with waitq := s₁.core.waitq ++ [caller] } }
  { s₂ with core := block_current_task s₂.core caller }

/-- `Condvar::wait_with_mutex` after the caller is woken (condvar.rs): the
last statement before returning is `mutex.lock()`. -/
def Condvar.wait_with_mutex_resume (s : SyncState) (caller : TaskId) : SyncState × Bool :=
  mutex_lock s caller

/-! ## Trap dispatcher (src/os/src/trap/mod.rs) -/

/-- The saved trap context: the 32 general-purpose register slots `x[i]` and
the saved program counter `sepc`. -/
structure TrapContext where
  x : Fin 32 → Nat
  sepc : Nat

/-- The storage `current_trap_cx()` reads from; a syscall such as `sys_exec`
may replace the whole context, which is why `trap_handler` re-fetches it. -/
structure TrapState where
  cx : TrapContext

/-- `result as usize`: the `isize` syscall result cast to the 64-bit machine
word written into `x[10]`. -/
def word64 (v : Int) : Nat := (v % (2 ^ 64 : Int)).toNat

/-- The state after `cx.sepc += 4` (the program counter is advanced past the
`ecall` instruction before the syscall is dispatched). -/
def pc_stepped (st : TrapState) : TrapState :=
  { st with cx := { st.cx with sepc := st.cx.sepc + 4 } }

/-- The dispatched syscall: `syscall(cx.x[17], [cx.x[10], cx.x[11], cx.x[12],
cx.x[14]])`, run on the pc-advanced state; it returns the `isize` result and
the state afterwards (possibly with a relocated trap context). -/
def syscall_res (f : Nat → Nat × Nat × Nat × Nat → TrapState → Int × TrapState)
    (st : TrapState) : Int × TrapState :=
  f (st.cx.x 17) (st.cx.x 10, st.cx.x 11, st.cx.x 12, st.cx.x 14) (pc_stepped st)

/-- The `Trap::Exception(Exception::UserEnvCall)` arm of `trap_handler`:
advance `sepc` by 4, dispatch `syscall` on the saved number/argument
registers, re-fetch the trap context, and write the result into `x[10]`.  The
syscall implementation is a parameter `f`. -/
def user_env_call (f : Nat → Nat × Nat × Nat × Nat → TrapState → Int × TrapState)
    (st : TrapState) : TrapState :=
  let res := syscall_res f st
  let st₂ := res.2
  { st₂ with cx := { st₂.cx with x := Function.update st₂.cx.x 10 (word64 res.1) } }

/-- The trap causes distinguished by the `match scause.cause()` in
`trap_handler`. -/
inductive TrapCause where
  | UserEnvCall
  | StoreFault
  | StorePageFault
  | InstructionFault
  | InstructionPageFault
  | LoadFault
  | LoadPageFault
  | IllegalInstruction
  | SupervisorTimer
  | SupervisorExternal
  | Other
deriving DecidableEq

/-- The signals `trap_handler` can deliver to the current task. -/
inductive SignalFlag where
  | SIGSEGV
  | SIGILL
deriving DecidableEq

/-- What each arm of the `trap_handler` match does. -/
inductive TrapAction where
  | syscallPath
  | addSignal (sig : SignalFlag)
  | timerTick
  | externalIrq
  | kernelHalt
deriving DecidableEq

/-- The arm selection of `trap_handler`'s `match scause.cause()`: syscalls go
to the dispatch path, the six memory/instruction fault causes deliver
`SIGSEGV` via `current_add_signal`, `IllegalInstruction` delivers `SIGILL`,
the timer interrupt reprograms the timer and yields, the external interrupt is
delegated, and any other cause panics the kernel. -/
def trap_dispatch : TrapCause → TrapAction
  | TrapCause.UserEnvCall => TrapAction.syscallPath
  | TrapCause.StoreFault => TrapAction.addSignal SignalFlag.SIGSEGV
  | TrapCause.StorePageFault => TrapAction.addSignal SignalFlag.SIGSEGV
  | TrapCause.InstructionFault => TrapAction.addSignal SignalFlag.SIGSEGV
  | TrapCause.InstructionPageFault => TrapAction.addSignal SignalFlag.SIGSEGV
  | TrapCause.LoadFault => TrapAction.addSignal SignalFlag.SIGSEGV
  | TrapCause.LoadPageFault => TrapAction.addSignal SignalFlag.SIGSEGV
  | TrapCause.IllegalInstruction => TrapAction.addSignal SignalFlag.SIGILL
  | TrapCause.SupervisorTimer => TrapAction.timerTick
  | TrapCause.SupervisorExternal => TrapAction.externalIrq
  | TrapCause.Other => TrapAction.kernelHalt

/-! ## User-pointer syscalls (src/os/src/syscall/process.rs)

`sys_get_time` and `sys_task_info` translate the user pointer through the
current page table with `translate_va(...).unwrap()`: if the address is not
mapped, `translate_va` yields `None` and the `unwrap` panics the kernel. -/

/-- The current address space's virtual-to-physical mapping, as the list of
mapped (virtual address, physical address) pairs. -/
abbrev PageTable := List (Nat × Nat)

/-- `PageTable::translate_va`: look the virtual address up; `none` when the
address is unmapped. -/
def translate_va (pt : PageTable) (va : Nat) : Option Nat :=
  pt.lookup va

/-- The observable outcome of a syscall: a returned value, or a kernel panic
(the kernel halts). -/
inductive KernelOutcome where
  | ret (v : Int)
  | panicked
deriving DecidableEq

/-- `sys_get_time(ts, tz)`: translate `ts` through the page table (`.unwrap()`
panics on an unmapped address), write `TimeVal \x7b sec, usec \x7d` from
`get_time_us()`, and return 0.  The second component is the written
(sec, usec) pair; the `modify_time` accounting call is omitted. -/
def sys_get_time (pt : PageTable) (ts : Nat) (time_us : Nat) :
    KernelOutcome × Option (Nat × Nat) :=
  match translate_va pt ts with
  | none => (KernelOutcome.panicked, none)
  | some _ => (KernelOutcome.ret 0, some (time_us / 1000000, time_us % 1000000))

/-- `sys_task_info(ti)`: translate `ti` through the page table (`.unwrap()`
panics on an unmapped address), write the current `TaskInfo`, and return 0. -/
def sys_task_info (pt : PageTable) (ti : Nat) : KernelOutcome :=
  match translate_va pt ti with
  | none => KernelOutcome.panicked
  | some _ => KernelOutcome.ret 0

/-! ## PID registry (src/os/src/task/manager.rs)

`PID2PCB` is a `BTreeMap<usize, Arc<ProcessControlBlock>>`; it is embedded as
an association list with unique keys, processes by their pointer identity. -/

/-- The pid-to-process map; values are process identities. -/
abbrev PidMap := List (Nat × Nat)

/-- `BTreeMap::remove(&pid)`: the removed value (if any) and the map
afterwards. -/
def btree_remove (pid : Nat) (m : PidMap) : Option Nat × PidMap :=
  (m.lookup pid, m.eraseP (fun e => e.1 == pid))

/-- `remove_from_pid2process(pid)`: remove the binding; if nothing was
removed, panic with a diagnostic. -/
def remove_from_pid2process (pid : Nat) (m : PidMap) : Except String PidMap :=
  match btree_remove pid m with
  | (none, _) => Except.error "cannot find pid in pid2task!"
  | (some _, m₂) => Except.ok m₂

/-! ## `Inode::create` (src/easy-fs/src/vfs.rs)

A directory inode's contents are its directory entries (name, inode number),
read and written `DIRENT_SZ` bytes at a time; the directory size is
`entries.length * DIRENT_SZ`.  The inode bitmap is abstracted as the next
free inode id (its `alloc` never fails in this model). -/

/-- A directory's disk state: its entries in on-disk order, plus the inode
allocator. -/
structure DirState where
  entries : List (String × Nat)
  next_inode : Nat
deriving DecidableEq

/-- `Inode::find_inode_id(name)`: scan the `file_count` directory entries in
order; return the inode number of the first entry named `name`. -/
def find_inode_id (name : String) (d : DirState) : Option Nat :=
  (d.entries.find? (fun e => e.1 == name)).map Prod.snd

/-- `Inode::create(name)`: if `find_inode_id` finds an existing entry, return
`None` without touching the directory (the closure passed to
`modify_disk_inode` only reads); otherwise allocate a fresh inode, initialize
it, grow the directory by one `DIRENT_SZ` slot and write the new entry at
offset `file_count * DIRENT_SZ` (i.e. append it).  Returns the new inode id
and the directory afterwards. -/
def Inode.create (name : String) (d : DirState) : Option Nat × DirState :=
  match find_inode_id name d with
  | some _ => (none, d)
  | none =>
    (some d.next_inode,
     { entries := d.entries ++ [(name, d.next_inode)]
       next_inode := d.next_inode + 1 })

/-! ## Concrete states used to exercise the theorems below -/

/-- A concrete scheduling state: task 1 ready, task 2 blocked on the condvar. -/
def exSched : SchedState :=
  ⟨[1], [2],
   fun t =>
     if t = 1 then SchedStatus.Ready
     else if t = 2 then SchedStatus.Blocked
     else SchedStatus.UnInit⟩

/-- A concrete sync state: the mutex held with task 7 queued on it, the
condvar queue empty, every task blocked. -/
def exSync : SyncState :=
  ⟨⟨true, [7]⟩, ⟨[], [], fun _ => SchedStatus.Blocked⟩⟩

/-- A concrete sync state with a free mutex and no waiters. -/
def exSyncFree : SyncState :=
  ⟨⟨false, []⟩, ⟨[], [], fun _ => SchedStatus.Blocked⟩⟩

/-- A concrete syscall implementation: returns number plus first argument and
leaves the trap state unchanged. -/
def exSyscall : Nat → Nat × Nat × Nat × Nat → TrapState → Int × TrapState :=
  fun n args s => (Int.ofNat (n + args.1), s)

/-- A concrete trap state whose register slots hold their own indices. -/
def exTrap : TrapState := ⟨⟨fun i => (i : Nat), 100⟩⟩

/-- A concrete pid registry with two live processes. -/
def exPidMap : PidMap := [(1, 10), (2, 20)]

/-- A concrete directory holding one entry named `a`. -/
def exDir : DirState := ⟨[("a", 1)], 5⟩


/-! ## Theorems -/

theorem TaskManager.foldl_add_ready (L : List TaskId) (q : List TaskId) :
    (L.foldl TaskManager.add ⟨q⟩).ready_queue = q ++ L := by
  induction L generalizing q with
  | nil => simp
  | cons t L ih => simpa [TaskManager.add] using ih (q ++ [t])

theorem TaskManager.drainFuel_ready (q : List TaskId) :
    TaskManager.drainFuel q.length ⟨q⟩ = q := by
  induction q with
  | nil => rfl
  | cons t rest ih => simp [TaskManager.drainFuel, TaskManager.fetch, ih]

/-- Claim C2: for every sequence of `add`s on the task manager, repeated
`fetch` returns the tasks in exactly the order they were added (FIFO), and
`fetch` on an empty queue returns `none` rather than any task reference. -/
theorem C2_task_manager_fifo (L : List TaskId) :
    TaskManager.drainFuel L.length (L.foldl TaskManager.add TaskManager.new) = L ∧
    TaskManager.new.fetch = (none, TaskManager.new) := by
  constructor
  · have h : L.foldl TaskManager.add TaskManager.new = ⟨L⟩ := by
      show L.foldl TaskManager.add ⟨[]⟩ = ⟨L⟩
      have h₀ := TaskManager.foldl_add_ready L []
      calc L.foldl TaskManager.add ⟨[]⟩
          = ⟨(L.foldl TaskManager.add (⟨[]⟩ : TaskManager)).ready_queue⟩ := rfl
        _ = ⟨[] ++ L⟩ := by rw [h₀]
        _ = ⟨L⟩ := by rw [List.nil_append]
    rw [h]
    exact TaskManager.drainFuel_ready L
  · rfl

theorem enumFrom_find?_none (task : TaskId) (n : Nat) (q : List TaskId)
    (h : task ∉ q) :
    (List.enumFrom n q).find? (fun p => p.2 == task) = none := by
  induction q generalizing n with
  | nil => rfl
  | cons a q ih =>
    have ha : ((a : TaskId) == task) = false := by
      simp only [beq_eq_false_iff_ne, ne_eq]
      exact fun he => h (he ▸ List.mem_cons_self a q)
    simp only [List.enumFrom, List.find?, ha]
    exact ih (n + 1) (fun hm => h (List.mem_cons_of_mem a hm))

theorem enumFrom_find?_first (task : TaskId) (l₂ : List TaskId) (n : Nat)
    (l₁ : List TaskId) (h : task ∉ l₁) :
    (List.enumFrom n (l₁ ++ task :: l₂)).find? (fun p => p.2 == task)
      = some (n + l₁.length, task) := by
  induction l₁ generalizing n with
  | nil => simp [List.enumFrom, List.find?]
  | cons a l₁ ih =>
    have ha : ((a : TaskId) == task) = false := by
      simp only [beq_eq_false_iff_ne, ne_eq]
      exact fun he => h (he ▸ List.mem_cons_self a l₁)
    simp only [List.cons_append, List.enumFrom, List.find?, ha, List.append_eq]
    rw [ih (n + 1) (fun hm => h (List.mem_cons_of_mem a hm))]
    simp [Nat.add_comm, Nat.add_assoc, Nat.add_left_comm]

theorem eraseIdx_append_length (l₁ l₂ : List TaskId) (task : TaskId) :
    (l₁ ++ task :: l₂).eraseIdx l₁.length = l₁ ++ l₂ := by
  induction l₁ with
  | nil => rfl
  | cons a l₁ ih => simp [List.eraseIdx, ih]

/-- Claim C9: `TaskManager::remove(task)` removes at most the first entry with
the same reference identity as `task`, keeps all other entries in their
original relative order, and is a silent no-op when no entry matches. -/
theorem C9_remove_first_match (m : TaskManager) (l₁ l₂ : List TaskId)
    (task : TaskId) :
    (task ∉ m.ready_queue → m.remove task = m) ∧
    (task ∉ l₁ →
      TaskManager.remove ⟨l₁ ++ task :: l₂⟩ task = ⟨l₁ ++ l₂⟩) := by
  constructor
  · intro h
    unfold TaskManager.remove
    rw [show m.ready_queue.enum = List.enumFrom 0 m.ready_queue from rfl]
    rw [enumFrom_find?_none task 0 m.ready_queue h]
  · intro h
    unfold TaskManager.remove
    rw [show (l₁ ++ task :: l₂).enum = List.enumFrom 0 (l₁ ++ task :: l₂) from rfl]
    rw [enumFrom_find?_first task l₂ 0 l₁ h]
    simp only [Nat.zero_add]
    rw [eraseIdx_append_length]

/-- Witness for C9: removing an absent task is a no-op; removing a present
task deletes exactly its first occurrence. -/
theorem C9_remove_first_match_witness :
    TaskManager.remove ⟨[0, 1]⟩ 2 = ⟨[0, 1]⟩ ∧
    TaskManager.remove ⟨[0, 1, 5, 1]⟩ 5 = ⟨[0, 1, 1]⟩ :=
  ⟨(C9_remove_first_match ⟨[0, 1]⟩ [] [] 2).1 (by decide),
   (C9_remove_first_match ⟨[]⟩ [0, 1] [1] 5).2 (by decide)⟩

theorem wakeup_task_preserves_inv (st : SchedState) (t : TaskId)
    (h : SchedInv st) (ht : t ∉ st.waitq) : SchedInv (wakeup_task st t) := by
  obtain ⟨hr, hw⟩ := h
  constructor
  · intro x hx
    simp only [wakeup_task, add_task, List.mem_append, List.mem_singleton] at hx
    rcases hx with hx | rfl
    · by_cases hxt : x = t
      · subst hxt
        simp [wakeup_task, add_task, Function.update_same]
      · simp only [wakeup_task, add_task]
        rw [Function.update_noteq hxt]
        exact hr x hx
    · simp [wakeup_task, add_task, Function.update_same]
  · intro x hx
    simp only [wakeup_task, add_task] at hx ⊢
    have hxt : x ≠ t := fun he => ht (he ▸ hx)
    rw [Function.update_noteq hxt]
    exact hw x hx

/-- Claim C6: every task in the ready queue has status `Ready` and every task
in the condvar wait queue has status `Blocked`; each operation of the
scheduling core (`add`, `fetch`, `remove`, `wakeup_task`, `Condvar::signal`,
`Condvar::wait_no_sched`) preserves this invariant (under the side conditions
its call sites guarantee: `add` is applied to `Ready` tasks, a woken task is
no longer queued on the condvar, wait queues hold distinct task references,
and the running caller of `wait` is not in the ready queue). -/
theorem C6_sched_invariant_preserved (st : SchedState) (t cur : TaskId) :
    (SchedInv st → st.status t = SchedStatus.Ready → SchedInv (add_task st t)) ∧
    (SchedInv st → SchedInv (fetch_task st).2) ∧
    (SchedInv st → SchedInv (remove_task st t)) ∧
    (SchedInv st → t ∉ st.waitq → SchedInv (wakeup_task st t)) ∧
    (SchedInv st → st.waitq.Nodup → SchedInv (Condvar.signal st)) ∧
    (SchedInv st → cur ∉ st.ready → SchedInv (Condvar.wait_no_sched st cur)) := by
  refine ⟨?_, ?_, ?_, ?_, ?_, ?_⟩
  · rintro ⟨hr, hw⟩ hstat
    constructor
    · intro x hx
      simp only [add_task, List.mem_append, List.mem_singleton] at hx
      rcases hx with hx | rfl
      · exact hr x hx
      · exact hstat
    · intro x hx
      exact hw x hx
  · rintro ⟨hr, hw⟩
    unfold fetch_task
    cases hq : st.ready with
    | nil => exact ⟨hr, hw⟩
    | cons a rest =>
      constructor
      · intro x hx
        exact hr x (hq ▸ List.mem_cons_of_mem a hx)
      · intro x hx
        exact hw x hx
  · rintro ⟨hr, hw⟩
    constructor
    · intro x hx
      simp only [remove_task] at hx
      apply hr x
      unfold TaskManager.remove at hx
      cases hf : (List.enum st.ready).find? (fun p => p.2 == t) with
      | none => rwa [hf] at hx
      | some idp =>
        rw [hf] at hx
        exact List.eraseIdx_subset _ _ hx
    · intro x hx
      exact hw x hx
  · intro h ht
    exact wakeup_task_preserves_inv st t h ht
  · rintro ⟨hr, hw⟩ hnd
    unfold Condvar.signal
    cases hq : st.waitq with
    | nil => exact ⟨hr, hw⟩
    | cons a rest =>
      apply wakeup_task_preserves_inv
      · constructor
        · intro x hx
          exact hr x hx
        · intro x hx
          exact hw x (hq ▸ List.mem_cons_of_mem a hx)
      · rw [hq] at hnd
        exact (List.nodup_cons.mp hnd).1
  · rintro ⟨hr, hw⟩ hcur
    constructor
    · intro x hx
      simp only [Condvar.wait_no_sched, block_current_task] at hx ⊢
      have hxc : x ≠ cur := fun he => hcur (he ▸ hx)
      rw [Function.update_noteq hxc]
      exact hr x hx
    · intro x hx
      simp only [Condvar.wait_no_sched, block_current_task,
        List.mem_append, List.mem_singleton] at hx ⊢
      by_cases hxc : x = cur
      · subst hxc
        rw [Function.update_same]
      · rw [Function.update_noteq hxc]
        rcases hx with hx | rfl
        · exact hw x hx
        · exact absurd rfl hxc

/-- Witness for C6: the invariant-preservation facts instantiated on a
concrete scheduling state (task 1 ready, task 2 blocked). -/
theorem C6_sched_invariant_preserved_witness :
    SchedInv (add_task exSched 1) ∧
    SchedInv (fetch_task exSched).2 ∧
    SchedInv (remove_task exSched 1) ∧
    SchedInv (wakeup_task exSched 3) ∧
    SchedInv (Condvar.signal exSched) ∧
    SchedInv (Condvar.wait_no_sched exSched 3) :=
  ⟨(C6_sched_invariant_preserved exSched 1 3).1 (by decide) (by decide),
   (C6_sched_invariant_preserved exSched 1 3).2.1 (by decide),
   (C6_sched_invariant_preserved exSched 1 3).2.2.1 (by decide),
   (C6_sched_invariant_preserved exSched 3 3).2.2.2.1 (by decide) (by decide),
   (C6_sched_invariant_preserved exSched 1 3).2.2.2.2.1 (by decide) (by decide),
   (C6_sched_invariant_preserved exSched 1 3).2.2.2.2.2 (by decide) (by decide)⟩


theorem build_timers_sorted_aux (seq : List (Nat × TaskId)) :
    ∀ acc : List TimerCondVar, acc.Sorted timerLE →
      (seq.foldl (fun acc p => add_timer p.1 p.2 acc) acc).Sorted timerLE := by
  induction seq with
  | nil => intro acc h; simpa using h
  | cons p seq ih =>
    intro acc h
    simp only [List.foldl_cons]
    refine ih _ ?_
    show (List.orderedInsert timerLE ⟨p.1, p.2⟩ acc).Sorted timerLE
    exact List.Sorted.orderedInsert (⟨p.1, p.2⟩ : TimerCondVar) acc h

theorem build_timers_sorted (seq : List (Nat × TaskId)) :
    (build_timers seq).Sorted timerLE :=
  build_timers_sorted_aux seq [] List.sorted_nil

theorem build_timers_perm_aux (seq : List (Nat × TaskId)) :
    ∀ acc : List TimerCondVar,
      List.Perm (seq.foldl (fun acc p => add_timer p.1 p.2 acc) acc)
        (acc ++ seq.map (fun p => TimerCondVar.mk p.1 p.2)) := by
  induction seq with
  | nil => intro acc; simp
  | cons p seq ih =>
    intro acc
    simp only [List.foldl_cons, List.map_cons]
    refine (ih (add_timer p.1 p.2 acc)).trans ?_
    have h₁ : List.Perm (add_timer p.1 p.2 acc) (TimerCondVar.mk p.1 p.2 :: acc) :=
      List.perm_orderedInsert timerLE ⟨p.1, p.2⟩ acc
    have h₂ := h₁.append_right (seq.map (fun p => TimerCondVar.mk p.1 p.2))
    exact h₂.trans List.perm_middle.symm

theorem build_timers_perm (seq : List (Nat × TaskId)) :
    List.Perm (build_timers seq) (seq.map (fun p => TimerCondVar.mk p.1 p.2)) := by
  simpa using build_timers_perm_aux seq []

theorem check_timer_run_spec (T : Nat) (l : List TimerCondVar) :
    l.Sorted timerLE → ∀ st : SchedState,
      (check_timer T l st).1
          = l.filter (fun tv => decide (¬ tv.expire_ms ≤ T)) ∧
      (check_timer T l st).2.ready
          = st.ready
              ++ (l.filter (fun tv => decide (tv.expire_ms ≤ T))).map TimerCondVar.task := by
  induction l with
  | nil => intro _ st; simp [check_timer]
  | cons tv rest ih =>
    intro hs st
    rw [List.sorted_cons] at hs
    obtain ⟨hall, hs'⟩ := hs
    by_cases hT : tv.expire_ms ≤ T
    · obtain ⟨ih1, ih2⟩ := ih hs' (wakeup_task st tv.task)
      have hstep : check_timer T (tv :: rest) st
          = check_timer T rest (wakeup_task st tv.task) := by
        simp [check_timer, hT]
      refine ⟨?_, ?_⟩
      · rw [hstep, ih1, List.filter_cons]
        simp [hT]
      · rw [hstep, ih2, List.filter_cons]
        simp [hT, wakeup_task, add_task, List.append_assoc]
    · have hstep : check_timer T (tv :: rest) st = (tv :: rest, st) := by
        simp [check_timer, hT]
      have hgt : ∀ x ∈ rest, ¬ x.expire_ms ≤ T := by
        intro x hx hle
        exact hT (Nat.le_trans (hall x hx) hle)
      refine ⟨?_, ?_⟩
      · rw [hstep]
        rw [Eq.comm, List.filter_cons]
        have htv : (decide (¬ tv.expire_ms ≤ T)) = true := by simp [hT]
        rw [if_pos htv, List.filter_eq_self.mpr]
        intro a ha
        simpa using hgt a ha
      · rw [hstep]
        have hnil : (tv :: rest).filter (fun tv => decide (tv.expire_ms ≤ T)) = [] := by
          rw [List.filter_eq_nil_iff]
          intro a ha
          simp only [decide_eq_true_eq]
          rcases List.mem_cons.mp ha with rfl | ha
          · exact hT
          · exact hgt a ha
        simp [hnil]

theorem filter_map_mk (seq : List (Nat × TaskId)) (p : TimerCondVar → Bool) :
    (seq.map (fun q => TimerCondVar.mk q.1 q.2)).filter p
      = (seq.filter (fun q => p (TimerCondVar.mk q.1 q.2))).map
          (fun q => TimerCondVar.mk q.1 q.2) :=
  List.filter_map (fun q => TimerCondVar.mk q.1 q.2) seq

/-- Claim C1: after any sequence of `add_timer(t_i, task_i)` calls,
`check_timer()` at time `T` wakes (via `wakeup_task`, i.e. by appending to the
ready queue in wake order) exactly the tasks whose deadline is at most `T`,
wakes them in ascending order of deadline, and leaves exactly the entries with
deadline greater than `T` in the timer structure. -/
theorem C1_check_timer_wakes_expired (seq : List (Nat × TaskId)) (T : Nat)
    (st : SchedState) :
    (check_timer T (build_timers seq) st).2.ready
        = st.ready ++ ((build_timers seq).filter
            (fun tv => decide (tv.expire_ms ≤ T))).map TimerCondVar.task ∧
    ((build_timers seq).filter (fun tv => decide (tv.expire_ms ≤ T))).Sorted timerLE ∧
    List.Perm ((build_timers seq).filter (fun tv => decide (tv.expire_ms ≤ T)))
      ((seq.filter (fun p => decide (p.1 ≤ T))).map (fun p => TimerCondVar.mk p.1 p.2)) ∧
    (check_timer T (build_timers seq) st).1
        = (build_timers seq).filter (fun tv => decide (¬ tv.expire_ms ≤ T)) ∧
    List.Perm (check_timer T (build_timers seq) st).1
      ((seq.filter (fun p => decide (¬ p.1 ≤ T))).map (fun p => TimerCondVar.mk p.1 p.2)) := by
  have hsort := build_timers_sorted seq
  have hperm := build_timers_perm seq
  obtain ⟨h1, h2⟩ := check_timer_run_spec T (build_timers seq) hsort st
  refine ⟨h2, hsort.filter _, ?_, h1, ?_⟩
  · refine (hperm.filter _).trans ?_
    rw [filter_map_mk]
  · rw [h1]
    refine (hperm.filter _).trans ?_
    rw [filter_map_mk]

/-- Counterexample for claim C5: the `TaskStatus` enum of
src/os/src/task/task.rs consists of exactly `UnInit`, `Ready`, `Running` and
`Exited` — it contains no `Blocked` and no `Zombie` variant, so the claimed
state machine over `{Blocked, Zombie}` does not exist in this type. -/
theorem C5_counterexample :
    (Finset.univ : Finset TaskStatus)
      = {TaskStatus.UnInit, TaskStatus.Ready, TaskStatus.Running, TaskStatus.Exited} ∧
    Fintype.card TaskStatus = 4 := by
  constructor
  · decide
  · decide

/-- Claim C5 (amended): the `TaskStatus` type is exactly
`{UnInit, Ready, Running, Exited}` — its terminal state is `Exited`, and
`Blocked`/`Zombie` are absent — while `wakeup_task` (manager.rs) sets every
woken task's status to `Ready` (regardless of its previous status) and
re-enqueues it at the tail of the ready queue. -/
theorem C5_task_status_machine (st : SchedState) (t : TaskId) :
    (Finset.univ : Finset TaskStatus)
      = {TaskStatus.UnInit, TaskStatus.Ready, TaskStatus.Running, TaskStatus.Exited} ∧
    (wakeup_task st t).status t = SchedStatus.Ready ∧
    (wakeup_task st t).ready = st.ready ++ [t] ∧
    (wakeup_task st t).waitq = st.waitq := by
  refine ⟨by decide, ?_, rfl, rfl⟩
  simp [wakeup_task, add_task, Function.update_same]

/-- Claim C3: `Condvar::wait_with_mutex` releases the mutex (handing it to the
head of the mutex wait queue if one exists, marking it free otherwise),
enqueues the caller at the tail of the condvar wait queue, and suspends the
caller as `Blocked`, all within one scheduler-invisible step (the kernel path
runs with interrupts masked, so the embedding composes the three effects into
the single state `wait_with_mutex_suspend s caller`); after being woken the
caller runs `mutex.lock()` as the last statement before returning, so it holds
the mutex when `wait_with_mutex` returns — immediately when the mutex is free,
or after an `unlock` hands the still-locked mutex to it. -/
theorem C3_wait_with_mutex (s s' s'' : SyncState) (caller h : TaskId)
    (rest : List TaskId) :
    (s.mutex.wait_queue = [] →
        (Condvar.wait_with_mutex_suspend s caller).mutex.locked = false) ∧
    (s.mutex.wait_queue = h :: rest → h ≠ caller →
        (Condvar.wait_with_mutex_suspend s caller).mutex.wait_queue = rest ∧
        (Condvar.wait_with_mutex_suspend s caller).mutex.locked = s.mutex.locked ∧
        (Condvar.wait_with_mutex_suspend s caller).core.status h = SchedStatus.Ready ∧
        h ∈ (Condvar.wait_with_mutex_suspend s caller).core.ready) ∧
    (Condvar.wait_with_mutex_suspend s caller).core.waitq
        = s.core.waitq ++ [caller] ∧
    (Condvar.wait_with_mutex_suspend s caller).core.status caller
        = SchedStatus.Blocked ∧
    (s'.mutex.locked = false →
        Condvar.wait_with_mutex_resume s' caller
          = ({ s' with mutex := { s'.mutex with locked := true } }, true)) ∧
    (s'.mutex.locked = true →
        (Condvar.wait_with_mutex_resume s' caller).1.mutex.wait_queue
            = s'.mutex.wait_queue ++ [caller] ∧
        (Condvar.wait_with_mutex_resume s' caller).1.mutex.locked = true ∧
        (Condvar.wait_with_mutex_resume s' caller).1.core.status caller
            = SchedStatus.Blocked ∧
        (Condvar.wait_with_mutex_resume s' caller).2 = false) ∧
    (s''.mutex.wait_queue = caller :: rest →
        (mutex_unlock s'').mutex.locked = s''.mutex.locked ∧
        (mutex_unlock s'').core.status caller = SchedStatus.Ready ∧
        caller ∈ (mutex_unlock s'').core.ready) := by
  refine ⟨?_, ?_, ?_, ?_, ?_, ?_, ?_⟩
  · intro hq
    simp [Condvar.wait_with_mutex_suspend, mutex_unlock, hq, block_current_task]
  · intro hq hne
    refine ⟨?_, ?_, ?_, ?_⟩
    · simp [Condvar.wait_with_mutex_suspend, mutex_unlock, hq, block_current_task]
    · simp [Condvar.wait_with_mutex_suspend, mutex_unlock, hq, block_current_task]
    · simp only [Condvar.wait_with_mutex_suspend, mutex_unlock, hq,
        block_current_task, wakeup_task, add_task]
      rw [Function.update_noteq hne, Function.update_same]
    · simp [Condvar.wait_with_mutex_suspend, mutex_unlock, hq,
        block_current_task, wakeup_task, add_task]
  · cases hq : s.mutex.wait_queue with
    | nil =>
      simp [Condvar.wait_with_mutex_suspend, mutex_unlock, hq, block_current_task]
    | cons a l =>
      simp [Condvar.wait_with_mutex_suspend, mutex_unlock, hq,
        block_current_task, wakeup_task, add_task]
  · cases hq : s.mutex.wait_queue with
    | nil =>
      simp [Condvar.wait_with_mutex_suspend, mutex_unlock, hq,
        block_current_task, Function.update_same]
    | cons a l =>
      simp [Condvar.wait_with_mutex_suspend, mutex_unlock, hq,
        block_current_task, wakeup_task, add_task, Function.update_same]
  · intro hl
    simp [Condvar.wait_with_mutex_resume, mutex_lock, hl]
  · intro hl
    refine ⟨?_, ?_, ?_, ?_⟩
    · simp [Condvar.wait_with_mutex_resume, mutex_lock, hl, block_current_task]
    · simp [Condvar.wait_with_mutex_resume, mutex_lock, hl]
    · simp [Condvar.wait_with_mutex_resume, mutex_lock, hl, block_current_task,
        Function.update_same]
    · simp [Condvar.wait_with_mutex_resume, mutex_lock, hl]
  · intro hq
    refine ⟨?_, ?_, ?_⟩
    · simp [mutex_unlock, hq]
    · simp [mutex_unlock, hq, wakeup_task, add_task, Function.update_same]
    · simp [mutex_unlock, hq, wakeup_task, add_task]

/-- Witness for C3: the suspend/resume facts at a concrete state (mutex held
with waiter 7 queued, caller 5). -/
theorem C3_wait_with_mutex_witness :
    (Condvar.wait_with_mutex_suspend exSync 5).core.status 5 = SchedStatus.Blocked ∧
    (Condvar.wait_with_mutex_suspend exSync 5).core.waitq = [5] ∧
    (Condvar.wait_with_mutex_suspend exSync 5).core.status 7 = SchedStatus.Ready ∧
    Condvar.wait_with_mutex_resume exSyncFree 5
      = ({ exSyncFree with mutex := { exSyncFree.mutex with locked := true } }, true) ∧
    (mutex_unlock ⟨⟨true, [5]⟩, ⟨[], [], fun _ => SchedStatus.Blocked⟩⟩).core.status 5
      = SchedStatus.Ready :=
  ⟨(C3_wait_with_mutex exSync exSyncFree exSync 5 7 []).2.2.2.1,
   (C3_wait_with_mutex exSync exSyncFree exSync 5 7 []).2.2.1,
   ((C3_wait_with_mutex exSync exSyncFree exSync 5 7 []).2.1 rfl (by decide)).2.2.1,
   (C3_wait_with_mutex exSync exSyncFree exSync 5 7 []).2.2.2.2.1 rfl,
   ((C3_wait_with_mutex exSync exSyncFree ⟨⟨true, [5]⟩, ⟨[], [], fun _ => SchedStatus.Blocked⟩⟩
      5 7 []).2.2.2.2.2.2 rfl).2.1⟩

/-- Claim C7: the `UserEnvCall` arm of `trap_handler` first advances the saved
program counter by 4 (past the `ecall`), dispatches on the syscall number
`x[17]` and the argument registers of the saved context, re-fetches the trap
context after the syscall returns, and stores the return value into the
`x[10]` slot of that (possibly relocated) context, leaving its other register
slots and `sepc` as the syscall left them. -/
theorem C7_user_env_call_shape
    (f : Nat → Nat × Nat × Nat × Nat → TrapState → Int × TrapState)
    (st : TrapState) :
    (pc_stepped st).cx.sepc = st.cx.sepc + 4 ∧
    (pc_stepped st).cx.x = st.cx.x ∧
    user_env_call f st
      = { (syscall_res f st).2 with
          cx := { (syscall_res f st).2.cx with
                  x := Function.update (syscall_res f st).2.cx.x 10
                        (word64 (syscall_res f st).1) } } ∧
    (user_env_call f st).cx.x 10 = word64 (syscall_res f st).1 ∧
    (∀ i : Fin 32, i ≠ 10 →
        (user_env_call f st).cx.x i = (syscall_res f st).2.cx.x i) ∧
    (user_env_call f st).cx.sepc = (syscall_res f st).2.cx.sepc := by
  refine ⟨rfl, rfl, rfl, ?_, ?_, rfl⟩
  · simp [user_env_call, Function.update_same]
  · intro i hi
    simp only [user_env_call]
    rw [Function.update_noteq hi]

/-- Witness for C7: on a concrete context (register slots holding their own
indices, `sepc = 100`) with the syscall returning number plus first argument,
the result lands in `x[10]`, `x[11]` is untouched, and `sepc` was advanced. -/
theorem C7_user_env_call_shape_witness :
    (user_env_call exSyscall exTrap).cx.x 11 = 11 ∧
    (user_env_call exSyscall exTrap).cx.x 10 = 27 ∧
    (user_env_call exSyscall exTrap).cx.sepc = 104 := by
  refine ⟨?_, ?_, ?_⟩
  · have h := (C7_user_env_call_shape exSyscall exTrap).2.2.2.2.1 11 (by decide)
    rw [h]
    rfl
  · have h := (C7_user_env_call_shape exSyscall exTrap).2.2.2.1
    rw [h]
    rfl
  · have h := (C7_user_env_call_shape exSyscall exTrap).2.2.2.2.2
    rw [h]
    rfl

/-- Claim C4 evaluation: the six memory/instruction-fault causes and
`IllegalInstruction` are converted to signals (`SIGSEGV`/`SIGILL`) rather than
kernel panics, but `sys_get_time`/`sys_task_info` invoked with an unmapped
user pointer panic the kernel through `translate_va(...).unwrap()` instead of
returning an error: the claim fails on the syscall path. -/
theorem C4_bad_user_pointer_panics :
    (sys_get_time [] 4096 0).1 = KernelOutcome.panicked ∧
    sys_task_info [] 4096 = KernelOutcome.panicked ∧
    (sys_get_time [(4096, 8000)] 4096 1234567).1 = KernelOutcome.ret 0 ∧
    trap_dispatch TrapCause.StoreFault = TrapAction.addSignal SignalFlag.SIGSEGV ∧
    trap_dispatch TrapCause.StorePageFault = TrapAction.addSignal SignalFlag.SIGSEGV ∧
    trap_dispatch TrapCause.InstructionFault = TrapAction.addSignal SignalFlag.SIGSEGV ∧
    trap_dispatch TrapCause.InstructionPageFault = TrapAction.addSignal SignalFlag.SIGSEGV ∧
    trap_dispatch TrapCause.LoadFault = TrapAction.addSignal SignalFlag.SIGSEGV ∧
    trap_dispatch TrapCause.LoadPageFault = TrapAction.addSignal SignalFlag.SIGSEGV ∧
    trap_dispatch TrapCause.IllegalInstruction = TrapAction.addSignal SignalFlag.SIGILL :=
  ⟨rfl, rfl, rfl, rfl, rfl, rfl, rfl, rfl, rfl, rfl⟩

theorem filter_ne_of_not_mem (pid : Nat) (m : PidMap)
    (h : pid ∉ m.map Prod.fst) :
    m.filter (fun e => decide (¬ e.1 = pid)) = m := by
  rw [List.filter_eq_self]
  intro a ha
  simp only [decide_eq_true_eq]
  intro he
  exact h (List.mem_map.mpr ⟨a, ha, he⟩)

theorem eraseP_key_eq_filter (pid : Nat) (m : PidMap)
    (hnd : (m.map Prod.fst).Nodup) :
    m.eraseP (fun e => e.1 == pid) = m.filter (fun e => decide (¬ e.1 = pid)) := by
  induction m with
  | nil => rfl
  | cons e m ih =>
    simp only [List.map_cons, List.nodup_cons] at hnd
    obtain ⟨hnotin, hnd'⟩ := hnd
    by_cases he : e.1 = pid
    · rw [List.eraseP_cons_of_pos (by simpa using he), List.filter_cons]
      rw [show (decide (¬ e.1 = pid)) = false from by simpa using he]
      exact (filter_ne_of_not_mem pid m (he ▸ hnotin)).symm
    · rw [List.eraseP_cons_of_neg (by simpa using he), List.filter_cons]
      simp [show (decide (¬ e.1 = pid)) = true from by simpa using he, ih hnd']

theorem lookup_filter_ne (pid : Nat) (m : PidMap) :
    (m.filter (fun e => decide (¬ e.1 = pid))).lookup pid = none := by
  induction m with
  | nil => rfl
  | cons e m ih =>
    obtain ⟨k, v⟩ := e
    by_cases he : k = pid
    · rw [List.filter_cons]
      rw [show (decide (¬ (k, v).1 = pid)) = false from by simpa using he]
      exact ih
    · rw [List.filter_cons]
      rw [show (decide (¬ (k, v).1 = pid)) = true from by simpa using he]
      simp only [List.lookup]
      rw [show (pid == k) = false from by simpa using fun hk => he hk.symm]
      exact ih

/-- Claim C8: `remove_from_pid2process(pid)` removes the `pid` binding from
the registry when present (and no other binding, preserving order), panics
with a diagnostic exactly when no binding for `pid` is present, and hence a
given pid can be removed successfully only once. -/
theorem C8_remove_from_pid2process (m : PidMap) (pid : Nat)
    (hnd : (m.map Prod.fst).Nodup) :
    (m.lookup pid = none →
        remove_from_pid2process pid m
          = Except.error "cannot find pid in pid2task!") ∧
    (∀ pcb, m.lookup pid = some pcb →
        remove_from_pid2process pid m
          = Except.ok (m.filter (fun e => decide (¬ e.1 = pid)))) ∧
    (∀ m₂, remove_from_pid2process pid m = Except.ok m₂ →
        remove_from_pid2process pid m₂
          = Except.error "cannot find pid in pid2task!") := by
  refine ⟨?_, ?_, ?_⟩
  · intro h
    simp [remove_from_pid2process, btree_remove, h]
  · intro pcb h
    simp [remove_from_pid2process, btree_remove, h, eraseP_key_eq_filter pid m hnd]
  · intro m₂ hok
    cases hl : m.lookup pid with
    | none =>
      rw [show remove_from_pid2process pid m
            = Except.error "cannot find pid in pid2task!" from by
          simp [remove_from_pid2process, btree_remove, hl]] at hok
      exact absurd hok (by simp)
    | some pcb =>
      have hm₂ : m₂ = m.filter (fun e => decide (¬ e.1 = pid)) := by
        rw [show remove_from_pid2process pid m
              = Except.ok (m.eraseP (fun e => e.1 == pid)) from by
            simp [remove_from_pid2process, btree_remove, hl]] at hok
        have := Except.ok.inj hok
        rw [← this, eraseP_key_eq_filter pid m hnd]
      have hnone : m₂.lookup pid = none := by
        rw [hm₂]
        exact lookup_filter_ne pid m
      simp [remove_from_pid2process, btree_remove, hnone]

/-- Witness for C8: on the registry `[(1, 10), (2, 20)]`, removing pid 1
succeeds and leaves `[(2, 20)]`, removing it again panics, and removing the
absent pid 3 panics. -/
theorem C8_remove_from_pid2process_witness :
    remove_from_pid2process 1 exPidMap = Except.ok [(2, 20)] ∧
    remove_from_pid2process 1 [(2, 20)] = Except.error "cannot find pid in pid2task!" ∧
    remove_from_pid2process 3 exPidMap = Except.error "cannot find pid in pid2task!" :=
  ⟨(C8_remove_from_pid2process exPidMap 1 (by decide)).2.1 10 (by decide),
   (C8_remove_from_pid2process exPidMap 1 (by decide)).2.2 [(2, 20)]
     ((C8_remove_from_pid2process exPidMap 1 (by decide)).2.1 10 (by decide)),
   (C8_remove_from_pid2process exPidMap 3 (by decide)).1 (by decide)⟩

/-- Claim C10: `Inode::create(name)` on a directory returns `None` and leaves
the directory (entries and size) unchanged when an entry named `name` already
exists; otherwise it allocates a fresh inode and appends exactly one new
directory entry. -/
theorem C10_inode_create (d : DirState) (name : String) :
    ((find_inode_id name d).isSome = true → Inode.create name d = (none, d)) ∧
    (find_inode_id name d = none →
        Inode.create name d
          = (some d.next_inode,
             ⟨d.entries ++ [(name, d.next_inode)], d.next_inode + 1⟩)) := by
  constructor
  · intro h
    unfold Inode.create
    cases hf : find_inode_id name d with
    | none => rw [hf] at h; exact absurd h (by simp)
    | some i => rfl
  · intro h
    simp [Inode.create, h]

/-- Witness for C10: creating `a` in a directory already holding `a` returns
`None` and keeps the directory; creating `b` appends the entry `(b, 5)`. -/
theorem C10_inode_create_witness :
    Inode.create "a" exDir = (none, exDir) ∧
    Inode.create "b" exDir = (some 5, ⟨[("a", 1), ("b", 5)], 6⟩) :=
  ⟨(C10_inode_create exDir "a").1 (by decide),
   (C10_inode_create exDir "b").2 (by decide)⟩
